import Mathlib

/-!
Verification of the stock order-execution engine backend.

Shallow embedding of the TypeScript sources:
- `src/backend/src/types/order.types.ts` (OrderStatus, Order, DexQuote, OrderUpdate)
- `src/backend/src/models/order.model.ts` (OrderModel.updateStatus)
- `src/backend/src/services/order.service.ts` (OrderService: executeOrder,
  updateOrderStatus, applySlippageProtection, waitForConfirmation,
  signAndSubmitTransaction)
- `src/backend/src/services/event.publisher.ts` (EventPublisher.publishStatusUpdate)
- `src/backend/src/utils/websocket.manager.ts` (WebSocketManager)
- `src/backend/src/utils/error.util.ts` (handleRouteError)
- `src/backend/src/validators/order.validator.ts` (orderRequestSchema)

Asynchronous effects (database writes, queue enqueues, RPC calls, timers) are
modelled by explicit outcome parameters; machine floating point is modelled
over `Rat`.
-/

namespace StockExec

/-- `OrderStatus` from `order.types.ts`; the string enum values are produced by
`statusToString` below. -/
inductive OrderStatus where
  | pending
  | routing
  | building
  | submitted
  | confirmed
  | failed
deriving DecidableEq, Repr

/-- The string value of each `OrderStatus` enum member in the source. -/
def statusToString : OrderStatus → String
  | .pending => "pending"
  | .routing => "routing"
  | .building => "building"
  | .submitted => "submitted"
  | .confirmed => "confirmed"
  | .failed => "failed"

/-- The optional-column payload of a status write (the `updates?: Partial<Order>`
argument of `OrderModel.updateStatus` / `additionalData` of
`OrderService.updateOrderStatus`). -/
structure Upd where
  dexType : Option String := none
  executedPrice : Option String := none
  txHash : Option String := none
  errorReason : Option String := none
deriving DecidableEq, Repr

/-- JavaScript truthiness of an optional string value (`undefined`, `null` and
`""` are falsy). -/
def truthy : Option String → Bool
  | some s => !s.isEmpty
  | none => false

/-- A persisted row of the `orders` table (the columns touched by
`OrderModel.updateStatus`). -/
structure OrderRow where
  status : OrderStatus
  dexType : Option String := none
  executedPrice : Option String := none
  txHash : Option String := none
  errorReason : Option String := none
  updatedAt : Nat := 0
deriving DecidableEq, Repr

namespace OrderModel

/-- `OrderModel.updateStatus` (order.model.ts lines 63-100): builds an SQL
`UPDATE` that always sets `status` and `updated_at`, and additionally sets
`dex_type`, `executed_price`, `tx_hash`, `error_reason` exactly when the
corresponding `updates` field is truthy.  There is no check of the current
persisted status: the write is unconditional. -/
def updateStatus (row : OrderRow) (now : Nat) (status : OrderStatus)
    (updates : Upd) : OrderRow :=
  { status := status
    updatedAt := now
    dexType := if truthy updates.dexType then updates.dexType else row.dexType
    executedPrice :=
      if truthy updates.executedPrice then updates.executedPrice else row.executedPrice
    txHash := if truthy updates.txHash then updates.txHash else row.txHash
    errorReason :=
      if truthy updates.errorReason then updates.errorReason else row.errorReason }

end OrderModel

/-- A DEX quote (`DexQuote` of order.types.ts); prices are decimal strings in
the source, modelled as rationals (`parseFloat` applied on use). -/
structure DexQuote where
  dex : String
  quotePrice : Rat
  effectivePrice : Rat
deriving DecidableEq, Repr

/-- Exact decimal rounding to 8 fractional digits, modelling
`Number.prototype.toFixed(8)` as used by `applySlippageProtection`. -/
def toFixed8 (x : Rat) : Rat := ((round (x * 100000000) : Int) : Rat) / 100000000

/-- `OrderService.applySlippageProtection` (order.service.ts lines 233-249).
`rand` is the value drawn from `Math.random()`, a uniform sample in `[0, 1)`;
the source computes `variance = 1 - Math.random() * 0.001`. -/
def applySlippageProtection (expectedPrice : Rat) (slippageTolerance : Rat)
    (quotePrice : Rat) (rand : Rat) : Rat :=
  let slippagePercent := |(quotePrice - expectedPrice) / expectedPrice| * 100
  if slippagePercent > slippageTolerance then
    let slippageMultiplier := 1 - slippageTolerance / 100
    toFixed8 (expectedPrice * slippageMultiplier)
  else
    let variance := 1 - rand * 0.001
    toFixed8 (expectedPrice * variance)

/-- Outcome of `connection.confirmTransaction` raced against the 60 s timer in
`OrderService.waitForConfirmation`: the timer wins (`timeout`), or the
confirmation resolves with an on-chain error, or it resolves cleanly. -/
inductive ConfirmOutcome where
  | timeout
  | chainError (e : String)
  | confirmedOk
deriving DecidableEq, Repr

/-- `CONFIRMATION_TIMEOUT` from order.service.ts line 14 (milliseconds). -/
def CONFIRMATION_TIMEOUT : Nat := 60000

/-- `OrderService.waitForConfirmation` (order.service.ts lines 161-185): if the
race resolves to `null` (timeout) it returns `false`; if the confirmation
carries `value.err` it throws `Transaction failed: <err>`; otherwise `true`.
The `catch` block rethrows, so errors propagate unchanged. -/
def waitForConfirmation : ConfirmOutcome → Except String Bool
  | .timeout => .ok false
  | .chainError e => .error ("Transaction failed: " ++ e)
  | .confirmedOk => .ok true

/-- Environment of one `executeOrder` run: the outcome of every external
effect the run can perform. `dbOk` / `pubOk` give the outcome of the database
write and the queue publish for each status (each status is written at most
once per run). -/
structure ExecEnv where
  orderId : String
  orderFound : Bool
  hasBalance : Bool
  slippageTolerance : Rat
  routeResult : Except String DexQuote
  buildResult : Except String Unit
  sendResult : Except String String
  confirmOutcome : ConfirmOutcome
  rand : Rat
  dbOk : OrderStatus → Bool
  pubOk : OrderStatus → Bool

/-- One observable effect of a lifecycle run: a store write issued through
`OrderService.updateOrderStatus`, an event publish, or the direct fallback
store write in the `catch` block of `executeOrder`.  The `ok` flag records
whether the underlying operation succeeded. -/
inductive Effect where
  | dbWrite (st : OrderStatus) (upd : Upd) (ok : Bool)
  | publish (st : OrderStatus) (upd : Upd) (ok : Bool)
  | directDbWrite (st : OrderStatus) (upd : Upd) (ok : Bool)
deriving DecidableEq, Repr

namespace OrderService

/-- `OrderService.signAndSubmitTransaction` (order.service.ts lines 142-159):
on a send failure it wraps the message as `Transaction submission failed: …`. -/
def signAndSubmitTransaction (env : ExecEnv) : Except String String :=
  match env.sendResult with
  | .ok signature => .ok signature
  | .error m => .error ("Transaction submission failed: " ++ m)

/-- `OrderService.updateOrderStatus` (order.service.ts lines 191-231): the
database write is attempted inside a `try` whose `catch` only logs, then the
event publish is attempted inside a second `try` whose `catch` only logs, so
the call itself always resolves (`Except.ok`). -/
def updateOrderStatus (env : ExecEnv) (status : OrderStatus) (upd : Upd) :
    List Effect × Except String Unit :=
  ([Effect.dbWrite status upd (env.dbOk status),
    Effect.publish status upd (env.pubOk status)], .ok ())

/-- The `try` block of `OrderService.executeOrder` (order.service.ts lines
51-115): the staged lifecycle up to the `CONFIRMED` write, returning the
effects performed and either success or the thrown error message. -/
def runStages (env : ExecEnv) : List Effect × Except String Unit :=
  let w1 := updateOrderStatus env .routing {}
  if !env.orderFound then
    (w1.1, .error ("Order " ++ env.orderId ++ " not found"))
  else if !env.hasBalance then
    (w1.1, .error
      "Insufficient SOL balance. Please fund your wallet via https://faucet.solana.com")
  else
    match env.routeResult with
    | .error m => (w1.1, .error ("DEX routing failed: " ++ m))
    | .ok bestQuote =>
      let w2 := updateOrderStatus env .building { dexType := some bestQuote.dex }
      let effs2 := w1.1 ++ w2.1
      match env.buildResult with
      | .error m => (effs2, .error ("Transaction building failed: " ++ m))
      | .ok _ =>
        match signAndSubmitTransaction env with
        | .error m => (effs2, .error ("Transaction submission failed: " ++ m))
        | .ok txHash =>
          let w3 := updateOrderStatus env .submitted { txHash := some txHash }
          let effs3 := effs2 ++ w3.1
          match waitForConfirmation env.confirmOutcome with
          | .error m => (effs3, .error m)
          | .ok confirmed =>
            if !confirmed then
              (effs3, .error "Transaction confirmation timeout")
            else
              let finalPrice := applySlippageProtection
                bestQuote.effectivePrice env.slippageTolerance
                bestQuote.quotePrice env.rand
              let w4 := updateOrderStatus env .confirmed
                { executedPrice := some (toString finalPrice), txHash := some txHash }
              (effs3 ++ w4.1, .ok ())

/-- `OrderService.executeOrder` (order.service.ts lines 50-140).  The `catch`
block writes `FAILED` with `errorReason = error.message || 'Unknown error'`
through `updateOrderStatus`; only if that call itself rejected would the direct
`orderModel.updateStatus` fallback run; the original error is rethrown. -/
def executeOrder (env : ExecEnv) : List Effect × Except String Unit :=
  match runStages env with
  | (effs, .ok _) => (effs, .ok ())
  | (effs, .error msg) =>
    let errorMessage := if msg = "" then "Unknown error" else msg
    match updateOrderStatus env .failed { errorReason := some errorMessage } with
    | (fe, .ok _) => (effs ++ fe, .error msg)
    | (fe, .error _) =>
      (effs ++ fe ++
        [Effect.directDbWrite .failed { errorReason := some errorMessage }
          (env.dbOk .failed)], .error msg)

end OrderService

/-- The status of a store-write effect (`none` for publishes). -/
def dbStatus? : Effect → Option OrderStatus
  | .dbWrite st _ _ => some st
  | .directDbWrite st _ _ => some st
  | .publish _ _ _ => none

/-- The sequence of statuses a run issues to the store, in order. -/
def issuedStatuses (effs : List Effect) : List OrderStatus :=
  effs.filterMap dbStatus?

/-- Number of direct fallback store writes in a trace. -/
def directWriteCount (effs : List Effect) : Nat :=
  (effs.filter fun e =>
    match e with
    | .directDbWrite _ _ _ => true
    | _ => false).length

/-- The edges of the §4.1 state-machine graph:
`PENDING → ROUTING → BUILDING → SUBMITTED → CONFIRMED`, with `FAILED`
reachable from every non-terminal state. -/
def stepOK : OrderStatus → OrderStatus → Bool
  | .pending, .routing => true
  | .routing, .building => true
  | .building, .submitted => true
  | .submitted, .confirmed => true
  | .pending, .failed => true
  | .routing, .failed => true
  | .building, .failed => true
  | .submitted, .failed => true
  | _, _ => false

/-- `isPathFrom s l` holds when `l` read left to right is a walk of the
state-machine graph starting at `s`. -/
def isPathFrom : OrderStatus → List OrderStatus → Bool
  | _, [] => true
  | s, t :: ts => stepOK s t && isPathFrom t ts

/-- Applying one effect to a persisted row: successful store writes go through
`OrderModel.updateStatus`; failed writes and event publishes leave the row
unchanged. -/
def applyEffect (now : Nat) (row : OrderRow) : Effect → OrderRow
  | .dbWrite st upd true => OrderModel.updateStatus row now st upd
  | .dbWrite _ _ false => row
  | .directDbWrite st upd true => OrderModel.updateStatus row now st upd
  | .directDbWrite _ _ false => row
  | .publish _ _ _ => row

/-- The row produced by replaying a trace of effects onto a starting row. -/
def applyWrites (row : OrderRow) (now : Nat) (effs : List Effect) : OrderRow :=
  effs.foldl (applyEffect now) row

/-- The row state after one full `executeOrder` run over a starting row. -/
def persistRun (row : OrderRow) (now : Nat) (env : ExecEnv) : OrderRow :=
  applyWrites row now (OrderService.executeOrder env).1

/-- Specification-side summary of which error message an `executeOrder` run
throws, derived from the stage outcomes in lifecycle order (`none` = the run
succeeds).  Matches the `throw` sites of order.service.ts lines 51-115. -/
def stageFailureMessage (env : ExecEnv) : Option String :=
  if !env.orderFound then some ("Order " ++ env.orderId ++ " not found")
  else if !env.hasBalance then some
    "Insufficient SOL balance. Please fund your wallet via https://faucet.solana.com"
  else
    match env.routeResult with
    | .error m => some ("DEX routing failed: " ++ m)
    | .ok _ =>
      match env.buildResult with
      | .error m => some ("Transaction building failed: " ++ m)
      | .ok _ =>
        match env.sendResult with
        | .error m => some
            ("Transaction submission failed: " ++ ("Transaction submission failed: " ++ m))
        | .ok _ =>
          match env.confirmOutcome with
          | .timeout => some "Transaction confirmation timeout"
          | .chainError e => some ("Transaction failed: " ++ e)
          | .confirmedOk => none

/-! ### Helper lemmas -/

theorem append_ne_empty_left (a b : String) (h : a ≠ "") : a ++ b ≠ "" := by
  intro hc
  apply h
  have := congrArg String.data hc
  simp [String.data_append] at this
  exact String.ext this.1

theorem append_ne_empty_left2 (a b c : String) (h : a ≠ "") : a ++ b ++ c ≠ "" :=
  append_ne_empty_left _ _ (append_ne_empty_left _ _ h)

theorem stageFailureMessage_ne_empty (env : ExecEnv) (msg : String)
    (h : stageFailureMessage env = some msg) : msg ≠ "" := by
  rcases env with ⟨oid, of, hb, st, rr, br, sr, co, rand, dbo, po⟩
  rcases of <;> rcases hb <;> rcases rr with m | q <;> rcases br with m2 | u <;>
    rcases sr with m3 | tx <;> rcases co <;>
    simp only [stageFailureMessage, Option.some.injEq, Bool.not_true, Bool.not_false,
      if_true, if_false, Bool.false_eq_true, reduceCtorEq] at h <;>
    first
    | exact absurd h (by simp)
    | (subst h; apply append_ne_empty_left2 _ _ _ (by decide))
    | (subst h; apply append_ne_empty_left _ _ (by decide))
    | (subst h; decide)

/-- On any stage failure, `executeOrder` rethrows the stage message after
appending exactly one `FAILED` store-write attempt and one `FAILED` event
publish to the trace. -/
theorem executeOrder_error_trace (env : ExecEnv) (msg : String)
    (h : stageFailureMessage env = some msg) :
    (OrderService.executeOrder env).2 = .error msg ∧
    (OrderService.executeOrder env).1 = (OrderService.runStages env).1 ++
      [Effect.dbWrite .failed { errorReason := some msg } (env.dbOk .failed),
       Effect.publish .failed { errorReason := some msg } (env.pubOk .failed)] := by
  have hne := stageFailureMessage_ne_empty env msg h
  rcases env with ⟨oid, of, hb, st, rr, br, sr, co, rand, dbo, po⟩
  rcases of <;> rcases hb <;> rcases rr with m | q <;> rcases br with m2 | u <;>
    rcases sr with m3 | tx <;> rcases co <;>
    simp only [stageFailureMessage, Option.some.injEq, Bool.not_true, Bool.not_false,
      if_true, if_false, Bool.false_eq_true, reduceCtorEq] at h <;>
    first
    | exact absurd h (by simp)
    | (subst h;
       simp [OrderService.executeOrder, OrderService.runStages,
         OrderService.updateOrderStatus, OrderService.signAndSubmitTransaction,
         waitForConfirmation, hne])

/-- No run of `executeOrder` ever performs the direct fallback store write:
`updateOrderStatus` catches its own database and publish errors, so the
`catch (statusError)` branch of order.service.ts lines 126-136 is unreachable. -/
theorem executeOrder_no_direct_write (env : ExecEnv) :
    directWriteCount (OrderService.executeOrder env).1 = 0 := by
  rcases env with ⟨oid, of, hb, st, rr, br, sr, co, rand, dbo, po⟩
  rcases of <;> rcases hb <;> rcases rr with m | q <;> rcases br with m2 | u <;>
    rcases sr with m3 | tx <;> rcases co <;>
    simp [OrderService.executeOrder, OrderService.runStages,
      OrderService.updateOrderStatus, OrderService.signAndSubmitTransaction,
      waitForConfirmation, directWriteCount, List.filter]

/-- When the `FAILED` database write succeeds, a failing run leaves the row at
`status = failed` with `errorReason` equal to the stage message. -/
theorem persistRun_failed (env : ExecEnv) (msg : String) (row : OrderRow) (now : Nat)
    (h : stageFailureMessage env = some msg) (hdb : env.dbOk .failed = true) :
    (persistRun row now env).status = .failed ∧
    (persistRun row now env).errorReason = some msg := by
  have ht := executeOrder_error_trace env msg h
  have hne := stageFailureMessage_ne_empty env msg h
  have hE : msg.isEmpty = false := by
    rw [← Bool.not_eq_true, String.isEmpty_iff]
    exact hne
  unfold persistRun applyWrites
  rw [ht.2, hdb]
  simp [List.foldl_append, applyEffect, OrderModel.updateStatus, truthy, hE]

end StockExec

namespace StockExec

@[simp] theorem dbStatus?_dbWrite (st upd b) : dbStatus? (.dbWrite st upd b) = some st := rfl
@[simp] theorem dbStatus?_publish (st upd b) : dbStatus? (.publish st upd b) = none := rfl
@[simp] theorem dbStatus?_direct (st upd b) : dbStatus? (.directDbWrite st upd b) = some st := rfl

/-- C1 (amended): the lifecycle issues its status writes in state-machine
order: for every environment, the sequence of statuses `executeOrder` sends to
the store is a walk of the §4.1 graph starting at `PENDING`. -/
theorem executeOrder_statuses_path (env : ExecEnv) :
    isPathFrom OrderStatus.pending
      (issuedStatuses (OrderService.executeOrder env).1) = true := by
  rcases env with ⟨oid, of, hb, st, rr, br, sr, co, rand, dbo, po⟩
  rcases of <;> rcases hb <;> rcases rr with m | q <;> rcases br with m2 | u <;>
    rcases sr with m3 | tx <;> rcases co <;>
    simp [OrderService.executeOrder, OrderService.runStages,
      OrderService.updateOrderStatus, OrderService.signAndSubmitTransaction,
      waitForConfirmation, issuedStatuses, isPathFrom, stepOK]

/-- C1 counterexample: `OrderModel.updateStatus` persists a `pending` write on
a row whose current status is `confirmed` — the write is not refused even
though `confirmed` is not the expected predecessor of any state. -/
theorem updateStatus_unguarded_cex :
    (OrderModel.updateStatus { status := OrderStatus.confirmed } 5
      OrderStatus.pending {}).status = OrderStatus.pending ∧
    OrderStatus.pending ≠ OrderStatus.confirmed := by decide

/-- Environment for the C3 counterexample: routing fails and the `FAILED`
database write itself fails. -/
def cexEnvC3 : ExecEnv :=
  { orderId := "o1", orderFound := true, hasBalance := true, slippageTolerance := 0,
    routeResult := .error "no route", buildResult := .ok (), sendResult := .ok "sig",
    confirmOutcome := .confirmedOk, rand := 0,
    dbOk := fun st => match st with | .failed => false | _ => true,
    pubOk := fun _ => true }

/-- C3 counterexample: when the `FAILED` store write fails, the run performs
no direct retry of the store write (the claim requires one) and still attempts
event publication (the claim requires publication to be bypassed). -/
theorem failed_write_not_retried_cex :
    directWriteCount (OrderService.executeOrder cexEnvC3).1 = 0 ∧
    (OrderService.executeOrder cexEnvC3).1 =
      [Effect.dbWrite .routing {} true, Effect.publish .routing {} true,
       Effect.dbWrite .failed { errorReason := some "DEX routing failed: no route" } false,
       Effect.publish .failed { errorReason := some "DEX routing failed: no route" } true] := by
  decide

/-- C3 (amended): any stage failure appends exactly one `FAILED` store-write
attempt carrying the stage-specific message as `errorReason` plus one `FAILED`
event publish before the error is rethrown; the direct fallback store write is
never performed (even when the `FAILED` store write fails: the failure is
swallowed inside `updateOrderStatus`). -/
theorem executeOrder_failure_semantics (env : ExecEnv) (msg : String)
    (h : stageFailureMessage env = some msg) :
    (OrderService.executeOrder env).2 = .error msg ∧
    (OrderService.executeOrder env).1 = (OrderService.runStages env).1 ++
      [Effect.dbWrite .failed { errorReason := some msg } (env.dbOk .failed),
       Effect.publish .failed { errorReason := some msg } (env.pubOk .failed)] ∧
    directWriteCount (OrderService.executeOrder env).1 = 0 :=
  ⟨(executeOrder_error_trace env msg h).1, (executeOrder_error_trace env msg h).2,
   executeOrder_no_direct_write env⟩

/-- Environment for the C3 witness: routing fails, all infrastructure writes
succeed. -/
def wEnvC3 : ExecEnv :=
  { orderId := "o2", orderFound := true, hasBalance := true, slippageTolerance := 0,
    routeResult := .error "boom", buildResult := .ok (), sendResult := .ok "sig",
    confirmOutcome := .confirmedOk, rand := 0,
    dbOk := fun _ => true, pubOk := fun _ => true }

theorem executeOrder_failure_semantics_witness :
    (OrderService.executeOrder wEnvC3).2 = .error "DEX routing failed: boom" ∧
    (OrderService.executeOrder wEnvC3).1 = (OrderService.runStages wEnvC3).1 ++
      [Effect.dbWrite .failed { errorReason := some "DEX routing failed: boom" }
        (wEnvC3.dbOk .failed),
       Effect.publish .failed { errorReason := some "DEX routing failed: boom" }
        (wEnvC3.pubOk .failed)] ∧
    directWriteCount (OrderService.executeOrder wEnvC3).1 = 0 :=
  executeOrder_failure_semantics wEnvC3 "DEX routing failed: boom" (by decide)

end StockExec

namespace StockExec

/-- Row used in the C4 counterexample: a failed routing run followed by the
`ROUTING` write of a retry of the lifecycle. -/
def cexRowC4 : OrderRow :=
  OrderModel.updateStatus
    (OrderModel.updateStatus { status := OrderStatus.pending } 1 OrderStatus.failed
      { errorReason := some "DEX routing failed: no route" })
    2 OrderStatus.routing {}

/-- C4 counterexample: after a `FAILED` write, a subsequent `ROUTING` write
keeps the old non-empty `errorReason` — a persisted row with a non-failed
status carries a non-empty `errorReason`, refuting the biconditional. -/
theorem errorReason_not_cleared_cex :
    cexRowC4.status = OrderStatus.routing ∧
    cexRowC4.status ≠ OrderStatus.failed ∧
    cexRowC4.errorReason = some "DEX routing failed: no route" ∧
    truthy cexRowC4.errorReason = true := by decide

/-- C4 (amended): every failing run whose `FAILED` store write succeeds leaves
the row at `status = failed` with a non-empty `errorReason` (forward
direction); but `updateStatus` never clears `error_reason`, so a later
non-failed write (re-entering `routing` on retry) retains the stale reason. -/
theorem errorReason_iff_failed_amended (env : ExecEnv) (msg : String)
    (row : OrderRow) (now : Nat)
    (h : stageFailureMessage env = some msg) (hdb : env.dbOk .failed = true)
    (row2 : OrderRow) (now2 : Nat) :
    (persistRun row now env).status = .failed ∧
    (persistRun row now env).errorReason = some msg ∧
    truthy (persistRun row now env).errorReason = true ∧
    (OrderModel.updateStatus row2 now2 .routing {}).status = .routing ∧
    (OrderModel.updateStatus row2 now2 .routing {}).errorReason = row2.errorReason := by
  obtain ⟨hs, he⟩ := persistRun_failed env msg row now h hdb
  refine ⟨hs, he, ?_, rfl, ?_⟩
  · rw [he]
    have hne := stageFailureMessage_ne_empty env msg h
    have hE : msg.isEmpty = false := by
      rw [← Bool.not_eq_true, String.isEmpty_iff]
      exact hne
    simp [truthy, hE]
  · simp [OrderModel.updateStatus, truthy]

/-- Environment for the C4 witness: routing fails, all writes succeed. -/
def wEnvC4 : ExecEnv :=
  { orderId := "o4", orderFound := true, hasBalance := true, slippageTolerance := 0,
    routeResult := .error "pool down", buildResult := .ok (), sendResult := .ok "sig",
    confirmOutcome := .confirmedOk, rand := 0,
    dbOk := fun _ => true, pubOk := fun _ => true }

theorem errorReason_iff_failed_amended_witness :
    (persistRun { status := OrderStatus.pending } 7 wEnvC4).status = .failed ∧
    (persistRun { status := OrderStatus.pending } 7 wEnvC4).errorReason =
      some "DEX routing failed: pool down" ∧
    truthy (persistRun { status := OrderStatus.pending } 7 wEnvC4).errorReason = true ∧
    (OrderModel.updateStatus cexRowC4 9 .routing {}).status = .routing ∧
    (OrderModel.updateStatus cexRowC4 9 .routing {}).errorReason = cexRowC4.errorReason :=
  errorReason_iff_failed_amended wEnvC4 "DEX routing failed: pool down"
    { status := OrderStatus.pending } 7 (by decide) (by decide) cexRowC4 9

end StockExec

namespace StockExec

/-- C5: the confirmation race uses a 60 000 ms timer; a timed-out wait yields
`false` and the run fails with `errorReason` exactly
`"Transaction confirmation timeout"`; a confirmation that resolves with an
on-chain error fails the run with `errorReason` prefixed `"Transaction
failed: "`. `env1` is a run whose confirmation times out, `env2` one whose
confirmation reports the on-chain error `e`. -/
theorem confirmation_timeout_semantics (env1 env2 : ExecEnv) (e : String)
    (q1 q2 : DexQuote) (tx1 tx2 : String) (row1 row2 : OrderRow) (now1 now2 : Nat)
    (h1f : env1.orderFound = true) (h1b : env1.hasBalance = true)
    (h1r : env1.routeResult = .ok q1) (h1u : env1.buildResult = .ok ())
    (h1s : env1.sendResult = .ok tx1) (h1c : env1.confirmOutcome = .timeout)
    (h1d : env1.dbOk .failed = true)
    (h2f : env2.orderFound = true) (h2b : env2.hasBalance = true)
    (h2r : env2.routeResult = .ok q2) (h2u : env2.buildResult = .ok ())
    (h2s : env2.sendResult = .ok tx2) (h2c : env2.confirmOutcome = .chainError e)
    (h2d : env2.dbOk .failed = true) :
    CONFIRMATION_TIMEOUT = 60000 ∧
    waitForConfirmation ConfirmOutcome.timeout = .ok false ∧
    (OrderService.executeOrder env1).2 = .error "Transaction confirmation timeout" ∧
    (persistRun row1 now1 env1).status = .failed ∧
    (persistRun row1 now1 env1).errorReason = some "Transaction confirmation timeout" ∧
    (OrderService.executeOrder env2).2 = .error ("Transaction failed: " ++ e) ∧
    (persistRun row2 now2 env2).status = .failed ∧
    (persistRun row2 now2 env2).errorReason = some ("Transaction failed: " ++ e) := by
  have hm1 : stageFailureMessage env1 = some "Transaction confirmation timeout" := by
    simp [stageFailureMessage, h1f, h1b, h1r, h1u, h1s, h1c]
  have hm2 : stageFailureMessage env2 = some ("Transaction failed: " ++ e) := by
    simp [stageFailureMessage, h2f, h2b, h2r, h2u, h2s, h2c]
  obtain ⟨hp1s, hp1e⟩ := persistRun_failed env1 _ row1 now1 hm1 h1d
  obtain ⟨hp2s, hp2e⟩ := persistRun_failed env2 _ row2 now2 hm2 h2d
  exact ⟨rfl, rfl, (executeOrder_error_trace env1 _ hm1).1, hp1s, hp1e,
    (executeOrder_error_trace env2 _ hm2).1, hp2s, hp2e⟩

/-- Environments for the C5 witness. -/
def wEnvC5a : ExecEnv :=
  { orderId := "o5", orderFound := true, hasBalance := true, slippageTolerance := 0,
    routeResult := .ok { dex := "raydium", quotePrice := 1, effectivePrice := 1 },
    buildResult := .ok (), sendResult := .ok "sig5",
    confirmOutcome := .timeout, rand := 0,
    dbOk := fun _ => true, pubOk := fun _ => true }

def wEnvC5b : ExecEnv :=
  { wEnvC5a with orderId := "o5b", confirmOutcome := .chainError "InstructionError" }

theorem confirmation_timeout_semantics_witness :
    CONFIRMATION_TIMEOUT = 60000 ∧
    waitForConfirmation ConfirmOutcome.timeout = .ok false ∧
    (OrderService.executeOrder wEnvC5a).2 = .error "Transaction confirmation timeout" ∧
    (persistRun { status := OrderStatus.pending } 3 wEnvC5a).status = .failed ∧
    (persistRun { status := OrderStatus.pending } 3 wEnvC5a).errorReason =
      some "Transaction confirmation timeout" ∧
    (OrderService.executeOrder wEnvC5b).2 =
      .error ("Transaction failed: " ++ "InstructionError") ∧
    (persistRun { status := OrderStatus.pending } 4 wEnvC5b).status = .failed ∧
    (persistRun { status := OrderStatus.pending } 4 wEnvC5b).errorReason =
      some ("Transaction failed: " ++ "InstructionError") :=
  confirmation_timeout_semantics wEnvC5a wEnvC5b "InstructionError"
    { dex := "raydium", quotePrice := 1, effectivePrice := 1 }
    { dex := "raydium", quotePrice := 1, effectivePrice := 1 }
    "sig5" "sig5" { status := OrderStatus.pending } { status := OrderStatus.pending } 3 4
    rfl rfl rfl rfl rfl rfl rfl rfl rfl rfl rfl rfl rfl rfl

end StockExec

namespace StockExec

/-- `toFixed8` always produces a value with at most 8 fractional decimal
digits. -/
theorem toFixed8_den (x : Rat) : (toFixed8 x * 100000000).den = 1 := by
  unfold toFixed8
  rw [div_mul_cancel₀]
  · exact Rat.den_intCast _
  · norm_num

/-- C2: the executed-price computation.  Scenario 1 (`E Q S U`): observed
slippage exceeds the tolerance, so the price is clamped to `E · (1 − S/100)`.
Scenario 2 (`E2 …`): slippage within tolerance, so the microvariance
`U2 · 0.001 ∈ [0, 0.001)` is applied.  Scenario 3 (`E3 …`): `S = 0` and
`Q ≠ E` takes the clamp branch with multiplier exactly 1.  Scenario 4
(`E4 …`): `Q = E` always takes the microvariance branch.  Both branches
produce a value with 8 fractional digits. -/
theorem applySlippageProtection_spec
    (E Q S U : Rat) (hσ : |(Q - E) / E| * 100 > S)
    (E2 Q2 S2 U2 : Rat) (hσ2 : ¬(|(Q2 - E2) / E2| * 100 > S2))
    (hU2a : 0 ≤ U2) (hU2b : U2 < 1)
    (E3 Q3 U3 : Rat) (hE3 : 0 < E3) (hne3 : Q3 ≠ E3)
    (E4 S4 U4 : Rat) (hS4 : 0 ≤ S4) :
    applySlippageProtection E S Q U = toFixed8 (E * (1 - S / 100)) ∧
    applySlippageProtection E2 S2 Q2 U2 = toFixed8 (E2 * (1 - U2 * 0.001)) ∧
    0 ≤ U2 * 0.001 ∧ U2 * 0.001 < 0.001 ∧
    applySlippageProtection E3 0 Q3 U3 = toFixed8 (E3 * 1) ∧
    applySlippageProtection E4 S4 E4 U4 = toFixed8 (E4 * (1 - U4 * 0.001)) ∧
    (applySlippageProtection E S Q U * 100000000).den = 1 ∧
    (applySlippageProtection E2 S2 Q2 U2 * 100000000).den = 1 := by
  have h1 : applySlippageProtection E S Q U = toFixed8 (E * (1 - S / 100)) := by
    simp [applySlippageProtection, hσ]
  have h2 : applySlippageProtection E2 S2 Q2 U2 = toFixed8 (E2 * (1 - U2 * 0.001)) := by
    simp [applySlippageProtection, hσ2]
  refine ⟨h1, h2, ?_, ?_, ?_, ?_, ?_, ?_⟩
  · positivity
  · calc U2 * 0.001 < 1 * 0.001 := by
          apply mul_lt_mul_of_pos_right hU2b
          norm_num
      _ = 0.001 := by norm_num
  · have hs3 : |(Q3 - E3) / E3| * 100 > 0 := by
      apply mul_pos
      · rw [abs_pos]
        exact div_ne_zero (sub_ne_zero.mpr hne3) (ne_of_gt hE3)
      · norm_num
    simp only [applySlippageProtection, if_pos hs3]
    norm_num
  · have hs4 : ¬(|(E4 - E4) / E4| * 100 > S4) := by
      simp [sub_self, not_lt, hS4]
    simp only [applySlippageProtection]
    rw [if_neg hs4]
  · rw [h1]
    exact toFixed8_den _
  · rw [h2]
    exact toFixed8_den _

theorem applySlippageProtection_spec_witness :
    applySlippageProtection 2 1 3 0 = toFixed8 (2 * (1 - 1 / 100)) ∧
    applySlippageProtection 1 0 1 (1/2) = toFixed8 (1 * (1 - (1/2) * 0.001)) ∧
    0 ≤ (1/2 : Rat) * 0.001 ∧ (1/2 : Rat) * 0.001 < 0.001 ∧
    applySlippageProtection 2 0 3 0 = toFixed8 (2 * 1) ∧
    applySlippageProtection 5 2 5 0 = toFixed8 (5 * (1 - 0 * 0.001)) ∧
    (applySlippageProtection 2 1 3 0 * 100000000).den = 1 ∧
    (applySlippageProtection 1 0 1 (1/2) * 100000000).den = 1 :=
  applySlippageProtection_spec 2 3 1 0 (by norm_num [abs_of_pos])
    1 1 0 (1/2) (by norm_num) (by norm_num) (by norm_num)
    2 3 0 (by norm_num) (by norm_num)
    5 2 0 (by norm_num)

end StockExec
namespace StockExec

/-- Decimal digit characters of `n`, most significant first. -/
def natChars (n : Nat) : List Char :=
  if _h : n < 10 then [Nat.digitChar n]
  else natChars (n / 10) ++ [Nat.digitChar (n % 10)]
decreasing_by
  exact Nat.div_lt_self (by omega) (by omega)

theorem natChars_lt (n : Nat) (h : n < 10) : natChars n = [Nat.digitChar n] := by
  rw [natChars, dif_pos h]

theorem natChars_ge (n : Nat) (h : ¬ n < 10) :
    natChars n = natChars (n / 10) ++ [Nat.digitChar (n % 10)] := by
  rw [natChars]
  rw [dif_neg h]

theorem toDigitsCore_eq (fuel : Nat) : ∀ (n : Nat) (acc : List Char), n < fuel →
    Nat.toDigitsCore 10 fuel n acc = natChars n ++ acc := by
  induction fuel with
  | zero => intro n acc h; omega
  | succ f ih =>
    intro n acc h
    rw [Nat.toDigitsCore]
    by_cases h10 : n / 10 = 0
    · have hn : n < 10 := by omega
      rw [if_pos h10, natChars_lt n hn, Nat.mod_eq_of_lt hn]
      rfl
    · have hn : ¬ n < 10 := by
        intro hc
        exact h10 (Nat.div_eq_of_lt hc)
      rw [if_neg h10, ih (n / 10) _ (by omega), natChars_ge n hn, List.append_assoc]
      rfl

theorem repr_eq_natChars (n : Nat) : Nat.repr n = (natChars n).asString := by
  rw [Nat.repr, Nat.toDigits, toDigitsCore_eq (n + 1) n [] (by omega), List.append_nil]

/-- Value of a digit list, most significant first. -/
def charsVal (l : List Char) : Nat :=
  l.foldl (fun a c => 10 * a + (c.toNat - 48)) 0

theorem digitChar_val (d : Nat) (h : d < 10) : (Nat.digitChar d).toNat - 48 = d := by
  interval_cases d <;> rfl

theorem charsVal_natChars (n : Nat) : charsVal (natChars n) = n := by
  induction n using Nat.strong_induction_on with
  | _ n ih =>
    by_cases h : n < 10
    · rw [natChars_lt n h]
      simp [charsVal, digitChar_val n h]
    · rw [natChars_ge n h, charsVal, List.foldl_append]
      have hstep : List.foldl (fun a c => 10 * a + (c.toNat - 48)) 0 (natChars (n / 10))
          = charsVal (natChars (n / 10)) := rfl
      rw [hstep, ih (n / 10) (Nat.div_lt_self (by omega) (by omega))]
      simp only [List.foldl_cons, List.foldl_nil]
      rw [digitChar_val _ (Nat.mod_lt _ (by omega))]
      omega

theorem natRepr_inj (m n : Nat) (h : Nat.repr m = Nat.repr n) : m = n := by
  rw [repr_eq_natChars, repr_eq_natChars] at h
  have hd : natChars m = natChars n := congrArg String.data h
  calc m = charsVal (natChars m) := (charsVal_natChars m).symm
    _ = charsVal (natChars n) := by rw [hd]
    _ = n := charsVal_natChars n

theorem natToString_inj (m n : Nat) (h : toString m = toString n) : m = n :=
  natRepr_inj m n h

end StockExec

namespace StockExec

/-- The `OrderUpdate` record (order.types.ts) as received by
`EventPublisher.publishStatusUpdate`; `timestamp` is epoch milliseconds. -/
structure OrderUpdate where
  orderId : String
  status : OrderStatus
  dexType : Option String := none
  executedPrice : Option String := none
  txHash : Option String := none
  errorReason : Option String := none
  timestamp : Nat := 0
deriving DecidableEq, Repr

namespace EventPublisher

/-- Publisher state: the `orderQueues` cache (which orderIds have an
instantiated per-status queue map) and the jobs added to the queues, each
carrying its BullMQ `jobId` and the status queue it went to. -/
structure PubState where
  orderQueues : List String := []
  jobs : List (String × OrderStatus) := []
deriving DecidableEq, Repr

/-- Environment of one `publishStatusUpdate` call: whether
`OrderRedisManager.isOrderConnectionActive` reports an active connection for a
given orderId, whether `queue.add` succeeds, and the value of `Date.now()`
(milliseconds). -/
structure PubEnv where
  connActive : String → Bool
  enqueueOk : Bool
  nowMs : Nat

/-- `EventPublisher.getOrderQueues` (event.publisher.ts lines 21-73): returns
the cached queue map if present; otherwise throws when no active Redis
connection exists for the order (`isOrderConnectionActive` false, or
`getOrderConnection` null, merged into `connActive`); otherwise instantiates
the six per-status queues and caches them. -/
def getOrderQueues (active : String → Bool) (st : PubState) (orderId : String) :
    Except String PubState :=
  if orderId ∈ st.orderQueues then .ok st
  else if !(active orderId) then
    .error ("Redis connection not available for order " ++ orderId)
  else .ok { st with orderQueues := orderId :: st.orderQueues }

/-- The BullMQ job id built at event.publisher.ts line 85:
`` `${update.orderId}-${update.status}-${Date.now()}` ``. -/
def jobId (orderId : String) (status : OrderStatus) (nowMs : Nat) : String :=
  orderId ++ "-" ++ statusToString status ++ "-" ++ toString nowMs

/-- The `try` block of `publishStatusUpdate` (event.publisher.ts lines 76-106):
returns the state reached together with the error thrown, if any.  The queue
lookup for the update's status always succeeds because `getOrderQueues`
instantiates all six statuses. -/
def publishAttempt (env : PubEnv) (st : PubState) (u : OrderUpdate) :
    PubState × Option String :=
  match getOrderQueues env.connActive st u.orderId with
  | .error e => (st, some e)
  | .ok st1 =>
    if env.enqueueOk then
      ({ st1 with
         jobs := st1.jobs ++ [(jobId u.orderId u.status env.nowMs, u.status)] }, none)
    else (st1, some "enqueue failed")

/-- `EventPublisher.publishStatusUpdate` (event.publisher.ts lines 75-110): the
whole body is wrapped in `try { … } catch { log }`, so the call always
resolves; a thrown error is swallowed after the state mutations performed so
far. -/
def publishStatusUpdate (env : PubEnv) (st : PubState) (u : OrderUpdate) :
    Except String PubState :=
  .ok (publishAttempt env st u).1

/-- Whether an `Except`-valued call resolved without raising. -/
def returnsNormally (r : Except String PubState) : Bool :=
  match r with
  | .ok _ => true
  | .error _ => false

theorem getOrderQueues_jobs (active : String → Bool) (st : PubState)
    (orderId : String) (st1 : PubState)
    (h : getOrderQueues active st orderId = .ok st1) : st1.jobs = st.jobs := by
  unfold getOrderQueues at h
  by_cases h1 : orderId ∈ st.orderQueues
  · rw [if_pos h1] at h
    cases h
    rfl
  · rw [if_neg h1] at h
    by_cases h2 : active orderId
    · rw [h2] at h
      simp only [Bool.not_true, Bool.false_eq_true, if_false] at h
      cases h
      rfl
    · rw [Bool.not_eq_true] at h2
      rw [h2] at h
      simp at h

end EventPublisher

end StockExec

namespace StockExec

/-- C6: `publishStatusUpdate` always returns normally; a call that observes no
cached queues and no active Redis connection for its orderId swallows the
thrown error and is a complete no-op on publisher state; any call whose
enqueue fails leaves the set of enqueued jobs unchanged. -/
theorem publishStatusUpdate_never_raises
    (env : EventPublisher.PubEnv) (st : EventPublisher.PubState) (u : OrderUpdate)
    (env1 : EventPublisher.PubEnv) (st1 : EventPublisher.PubState) (u1 : OrderUpdate)
    (h1a : ¬ u1.orderId ∈ st1.orderQueues)
    (h1b : env1.connActive u1.orderId = false)
    (env2 : EventPublisher.PubEnv) (st2 : EventPublisher.PubState) (u2 : OrderUpdate)
    (h2 : env2.enqueueOk = false) :
    EventPublisher.returnsNormally (EventPublisher.publishStatusUpdate env st u) = true ∧
    EventPublisher.publishStatusUpdate env1 st1 u1 = .ok st1 ∧
    (EventPublisher.publishAttempt env1 st1 u1).2 =
      some ("Redis connection not available for order " ++ u1.orderId) ∧
    (EventPublisher.publishAttempt env2 st2 u2).1.jobs = st2.jobs := by
  have hgq : EventPublisher.getOrderQueues env1.connActive st1 u1.orderId =
      .error ("Redis connection not available for order " ++ u1.orderId) := by
    unfold EventPublisher.getOrderQueues
    rw [if_neg h1a, h1b]
    rfl
  refine ⟨rfl, ?_, ?_, ?_⟩
  · unfold EventPublisher.publishStatusUpdate EventPublisher.publishAttempt
    rw [hgq]
  · unfold EventPublisher.publishAttempt
    rw [hgq]
  · unfold EventPublisher.publishAttempt
    cases hq : EventPublisher.getOrderQueues env2.connActive st2 u2.orderId with
    | error e => rfl
    | ok st2' =>
      rw [h2]
      simp only [Bool.false_eq_true, if_false]
      exact EventPublisher.getOrderQueues_jobs env2.connActive st2 u2.orderId st2' hq

/-- Concrete inputs for the C6 witness. -/
def wPubEnvC6 : EventPublisher.PubEnv :=
  { connActive := fun _ => false, enqueueOk := false, nowMs := 1000 }

def wPubUpdC6 : OrderUpdate := { orderId := "o6", status := OrderStatus.routing }

theorem publishStatusUpdate_never_raises_witness :
    EventPublisher.returnsNormally
      (EventPublisher.publishStatusUpdate wPubEnvC6 {} wPubUpdC6) = true ∧
    EventPublisher.publishStatusUpdate wPubEnvC6 {} wPubUpdC6 = .ok {} ∧
    (EventPublisher.publishAttempt wPubEnvC6 {} wPubUpdC6).2 =
      some ("Redis connection not available for order " ++ wPubUpdC6.orderId) ∧
    (EventPublisher.publishAttempt wPubEnvC6 {} wPubUpdC6).1.jobs =
      EventPublisher.PubState.jobs {} :=
  publishStatusUpdate_never_raises wPubEnvC6 {} wPubUpdC6 wPubEnvC6 {} wPubUpdC6
    (by decide) rfl wPubEnvC6 {} wPubUpdC6 rfl

/-- Two distinct updates used in the C7 counterexample: same orderId, same
status, same `Date.now()` millisecond, different payloads. -/
def cexUpdA : OrderUpdate :=
  { orderId := "o7", status := OrderStatus.submitted, txHash := some "sigA" }

def cexUpdB : OrderUpdate :=
  { orderId := "o7", status := OrderStatus.submitted, txHash := some "sigB" }

/-- C7 counterexample: two distinct `publishStatusUpdate` calls (different
updates) that observe the same `Date.now()` millisecond attach the same job
key — duplicate submissions do collide on the `(orderId, status, Date.now())`
key, which has millisecond (not nanosecond) resolution. -/
theorem jobKey_collision_cex :
    cexUpdA ≠ cexUpdB ∧
    EventPublisher.jobId cexUpdA.orderId cexUpdA.status 1700000000000 =
      EventPublisher.jobId cexUpdB.orderId cexUpdB.status 1700000000000 := by
  constructor
  · decide
  · rfl

theorem string_append_right_inj (a x y : String) (h : a ++ x = a ++ y) : x = y := by
  have hd := congrArg String.data h
  simp only [String.data_append] at hd
  exact String.ext (List.append_cancel_left hd)

/-- C7 (amended): job keys built from different `Date.now()` readings are
distinct — for a fixed orderId and status the key determines the millisecond
timestamp injectively; calls in the same millisecond share the key. -/
theorem jobId_inj_time (o : String) (s : OrderStatus) (t1 t2 : Nat)
    (h : t1 ≠ t2) :
    EventPublisher.jobId o s t1 ≠ EventPublisher.jobId o s t2 := by
  intro hc
  apply h
  apply natToString_inj
  exact string_append_right_inj (o ++ "-" ++ statusToString s ++ "-") _ _ hc

theorem jobId_inj_time_witness :
    EventPublisher.jobId "o7" OrderStatus.submitted 1700000000000 ≠
      EventPublisher.jobId "o7" OrderStatus.submitted 1700000000001 :=
  jobId_inj_time "o7" OrderStatus.submitted 1700000000000 1700000000001 (by decide)

end StockExec

namespace StockExec

/-! ### WebSocketManager (websocket.manager.ts)

JavaScript `Map`s are modelled as association lists whose update operations
act functionally on lookups; `Set`s of sockets are lists without duplicates
(insertion only adds absent elements); sockets are identified by `Nat` ids. -/

/-- `Map.get`: the value of the first entry with the given key. -/
def lookupA {α β : Type} [DecidableEq α] : List (α × β) → α → Option β
  | [], _ => none
  | p :: l, k => if p.1 = k then some p.2 else lookupA l k

/-- `Map.delete`: remove the entry with the given key. -/
def eraseA {α β : Type} [DecidableEq α] (l : List (α × β)) (k : α) : List (α × β) :=
  l.filter fun p => decide (p.1 ≠ k)

/-- `Map.set`: bind a key to a value (represented functionally). -/
def setA {α β : Type} [DecidableEq α] (l : List (α × β)) (k : α) (v : β) :
    List (α × β) :=
  (k, v) :: eraseA l k

@[simp] theorem lookupA_nil {α β : Type} [DecidableEq α] (k : α) :
    lookupA ([] : List (α × β)) k = none := rfl

theorem lookupA_eraseA_self {α β : Type} [DecidableEq α] (l : List (α × β)) (k : α) :
    lookupA (eraseA l k) k = none := by
  induction l with
  | nil => rfl
  | cons p t ih =>
    by_cases h : p.1 = k
    · simpa [eraseA, h] using ih
    · simpa [eraseA, lookupA, h] using ih

theorem eraseA_cons_self {α β : Type} [DecidableEq α] (p : α × β)
    (t : List (α × β)) (k : α) (hp : p.1 = k) : eraseA (p :: t) k = eraseA t k := by
  simp [eraseA, hp]

theorem eraseA_cons_ne {α β : Type} [DecidableEq α] (p : α × β)
    (t : List (α × β)) (k : α) (hp : ¬ p.1 = k) :
    eraseA (p :: t) k = p :: eraseA t k := by
  simp [eraseA, hp]

theorem lookupA_eraseA_ne {α β : Type} [DecidableEq α] (l : List (α × β)) (k k' : α)
    (h : k' ≠ k) : lookupA (eraseA l k) k' = lookupA l k' := by
  induction l with
  | nil => rfl
  | cons p t ih =>
    by_cases hp : p.1 = k
    · rw [eraseA_cons_self p t k hp, ih, lookupA,
        if_neg (show ¬ p.1 = k' by rw [hp]; exact fun hc => h hc.symm)]
    · rw [eraseA_cons_ne p t k hp]
      by_cases hp' : p.1 = k'
      · rw [lookupA, if_pos hp', lookupA, if_pos hp']
      · rw [lookupA, if_neg hp', lookupA, if_neg hp', ih]

@[simp] theorem lookupA_setA_self {α β : Type} [DecidableEq α] (l : List (α × β))
    (k : α) (v : β) : lookupA (setA l k v) k = some v := by
  simp [setA, lookupA]

theorem lookupA_setA_ne {α β : Type} [DecidableEq α] (l : List (α × β)) (k k' : α)
    (v : β) (h : k' ≠ k) : lookupA (setA l k v) k' = lookupA l k' := by
  have : ¬ k = k' := fun hc => h hc.symm
  simp only [setA, lookupA, this, if_false]
  exact lookupA_eraseA_ne l k k' h

theorem mem_eraseA {α β : Type} [DecidableEq α] (l : List (α × β)) (k : α)
    (p : α × β) : p ∈ eraseA l k ↔ p ∈ l ∧ p.1 ≠ k := by
  simp [eraseA]

theorem lookupA_mem {α β : Type} [DecidableEq α] (l : List (α × β)) (k : α) (v : β)
    (h : lookupA l k = some v) : (k, v) ∈ l := by
  induction l with
  | nil => simp [lookupA] at h
  | cons p t ih =>
    by_cases hp : p.1 = k
    · rw [lookupA, if_pos hp] at h
      cases h
      subst hp
      rw [Prod.mk.eta]
      exact List.mem_cons_self p t
    · rw [lookupA, if_neg hp] at h
      exact List.mem_cons_of_mem p (ih h)

end StockExec

namespace StockExec

namespace WebSocketManager

/-- State of the `WebSocketManager`: `connections : Map<orderId, Set<socket>>`
and the reverse map `socketToOrderId : Map<socket, orderId>`. -/
structure WSState where
  connections : List (String × List Nat) := []
  socketToOrderId : List (Nat × String) := []
deriving DecidableEq, Repr

/-- The socket set registered for an orderId (`connections.get(orderId)`,
empty when absent). -/
def socksOf (st : WSState) (orderId : String) : List Nat :=
  (lookupA st.connections orderId).getD []

/-- `Set.add`: append the socket if absent. -/
def addSock (l : List Nat) (s : Nat) : List Nat :=
  if s ∈ l then l else l ++ [s]

/-- `WebSocketManager.register` (websocket.manager.ts lines 31-50): create the
set if missing, add the socket, record the reverse mapping.  (The close/error
hooks installed on the socket are delivery-time behaviour, not state.) -/
def register (st : WSState) (orderId : String) (socket : Nat) : WSState :=
  { connections := setA st.connections orderId (addSock (socksOf st orderId) socket)
    socketToOrderId := setA st.socketToOrderId socket orderId }

/-- Inner part of `unregisterSocket`: delete the socket from the set of
`orderId` in the connections map, dropping the key if the set became empty. -/
def removeSockFromConns (conns : List (String × List Nat)) (orderId : String)
    (socket : Nat) : List (String × List Nat) :=
  match lookupA conns orderId with
  | none => conns
  | some set0 =>
    let set1 := set0.filter fun s => decide (s ≠ socket)
    if set1.isEmpty then eraseA conns orderId
    else setA conns orderId set1

/-- `WebSocketManager.unregisterSocket` (lines 55-71): look up the socket's
orderId (return unchanged if absent), delete the socket from that order's set,
drop the order key if the set became empty, and delete the reverse entry. -/
def unregisterSocket (st : WSState) (socket : Nat) : WSState :=
  match lookupA st.socketToOrderId socket with
  | none => st
  | some orderId =>
    { connections := removeSockFromConns st.connections orderId socket
      socketToOrderId := eraseA st.socketToOrderId socket }

/-- `WebSocketManager.unregister` (lines 76-85): close every socket of the
orderId, delete each reverse entry, then drop the order key. -/
def unregister (st : WSState) (orderId : String) : WSState :=
  match lookupA st.connections orderId with
  | none => st
  | some set0 =>
    { connections := eraseA st.connections orderId
      socketToOrderId := set0.foldl (fun m s => eraseA m s) st.socketToOrderId }

/-- `WebSocketManager.clearAll` (lines 185-191): close all sockets and clear
both maps. -/
def clearAll : WSState := {}

/-- Per-socket delivery environment of one `emitToOrder` call: the socket's
`readyState` and whether `socket.send` succeeds (a `false` models a thrown
send error). -/
structure WSEnv where
  readyState : Nat → Nat
  sendOk : Nat → Bool

/-- `WebSocketManager.emitToOrder` (lines 95-137): fan the serialized frame
out to every socket registered for the orderId; a socket that is not open
(`readyState ≠ 1`) or whose send throws is unregistered and counted as a miss;
returns the number of successful sends.  With no registered sockets it returns
`0` without touching state. -/
def emitStep (env : WSEnv) (acc : WSState × Nat) (s : Nat) : WSState × Nat :=
  if env.readyState s = 1 then
    if env.sendOk s then (acc.1, acc.2 + 1) else (unregisterSocket acc.1 s, acc.2)
  else (unregisterSocket acc.1 s, acc.2)

def emitToOrder (env : WSEnv) (st : WSState) (orderId : String) :
    WSState × Nat :=
  match lookupA st.connections orderId with
  | none => (st, 0)
  | some socks =>
    if socks.isEmpty then (st, 0)
    else socks.foldl (emitStep env) (st, 0)

/-- A socket counts as a successful delivery when it is open and its send
succeeds. -/
def goodSock (env : WSEnv) (s : Nat) : Bool :=
  decide (env.readyState s = 1) && env.sendOk s

/-- Mutual consistency of the two maps: every registered set is non-empty and
each of its sockets reverse-maps to its key, and every reverse entry's socket
is a member of the set its orderId maps to.  (For lookups this is exactly:
`s ∈ connections.get(oid) ↔ socketToOrderId.get(s) = oid`.) -/
def consistent (st : WSState) : Prop :=
  (∀ p ∈ st.connections, p.2 ≠ [] ∧
    ∀ s ∈ p.2, lookupA st.socketToOrderId s = some p.1) ∧
  (∀ q ∈ st.socketToOrderId, q.1 ∈ socksOf st q.2)

instance (st : WSState) : Decidable (consistent st) := by
  unfold consistent socksOf
  infer_instance

end WebSocketManager

end StockExec

namespace StockExec

theorem mem_setA {α β : Type} [DecidableEq α] (l : List (α × β)) (k : α) (v : β)
    (p : α × β) : p ∈ setA l k v ↔ p = (k, v) ∨ (p ∈ l ∧ p.1 ≠ k) := by
  simp [setA, mem_eraseA]

theorem lookupA_eq_none_not_mem {α β : Type} [DecidableEq α] (l : List (α × β))
    (k : α) (h : lookupA l k = none) (v : β) : (k, v) ∉ l := by
  induction l with
  | nil => simp
  | cons p t ih =>
    by_cases hp : p.1 = k
    · rw [lookupA, if_pos hp] at h
      cases h
    · rw [lookupA, if_neg hp] at h
      intro hc
      rcases List.mem_cons.mp hc with hc1 | hc2
      · exact hp (by rw [← hc1])
      · exact ih h hc2

namespace WebSocketManager

theorem mem_addSock (l : List Nat) (s s' : Nat) :
    s' ∈ addSock l s ↔ s' ∈ l ∨ s' = s := by
  unfold addSock
  by_cases h : s ∈ l
  · rw [if_pos h]
    constructor
    · exact fun hm => Or.inl hm
    · rintro (hm | rfl)
      · exact hm
      · exact h
  · rw [if_neg h]
    simp

theorem addSock_ne_nil (l : List Nat) (s : Nat) : addSock l s ≠ [] := by
  unfold addSock
  by_cases h : s ∈ l
  · rw [if_pos h]
    intro hc
    rw [hc] at h
    cases h
  · rw [if_neg h]
    simp

/-- From consistency: a socket in a registered set reverse-maps to that key. -/
theorem consistent_set_to_rev (st : WSState) (hc : consistent st)
    (oid : String) (set0 : List Nat) (s : Nat)
    (hl : lookupA st.connections oid = some set0) (hs : s ∈ set0) :
    lookupA st.socketToOrderId s = some oid :=
  (hc.1 (oid, set0) (lookupA_mem _ _ _ hl)).2 s hs

/-- From consistency: a socket with no reverse entry is in no registered set. -/
theorem consistent_no_rev_not_mem (st : WSState) (hc : consistent st)
    (s : Nat) (hn : lookupA st.socketToOrderId s = none) (oid : String) :
    s ∉ socksOf st oid := by
  intro hmem
  unfold socksOf at hmem
  cases hl : lookupA st.connections oid with
  | none =>
    rw [hl] at hmem
    cases hmem
  | some set0 =>
    rw [hl] at hmem
    have := consistent_set_to_rev st hc oid set0 s hl hmem
    rw [hn] at this
    cases this

end WebSocketManager

end StockExec

namespace StockExec

namespace WebSocketManager

theorem unregisterSocket_eq_none (st : WSState) (sock : Nat)
    (hr : lookupA st.socketToOrderId sock = none) :
    unregisterSocket st sock = st := by
  unfold unregisterSocket
  rw [hr]

theorem unregisterSocket_eq_some (st : WSState) (sock : Nat) (oid0 : String)
    (hr : lookupA st.socketToOrderId sock = some oid0) :
    unregisterSocket st sock =
      { connections := removeSockFromConns st.connections oid0 sock
        socketToOrderId := eraseA st.socketToOrderId sock } := by
  unfold unregisterSocket
  rw [hr]

theorem removeSock_eq_none (conns : List (String × List Nat)) (oid : String)
    (sock : Nat) (hcl : lookupA conns oid = none) :
    removeSockFromConns conns oid sock = conns := by
  unfold removeSockFromConns
  rw [hcl]

theorem removeSock_eq_empty (conns : List (String × List Nat)) (oid : String)
    (sock : Nat) (set0 : List Nat) (hcl : lookupA conns oid = some set0)
    (he : (set0.filter fun s => decide (s ≠ sock)).isEmpty = true) :
    removeSockFromConns conns oid sock = eraseA conns oid := by
  unfold removeSockFromConns
  rw [hcl]
  simp only [he, if_true]

theorem removeSock_eq_filter (conns : List (String × List Nat)) (oid : String)
    (sock : Nat) (set0 : List Nat) (hcl : lookupA conns oid = some set0)
    (he : ¬ (set0.filter fun s => decide (s ≠ sock)).isEmpty = true) :
    removeSockFromConns conns oid sock =
      setA conns oid (set0.filter fun s => decide (s ≠ sock)) := by
  unfold removeSockFromConns
  rw [hcl]
  simp only [he, if_false, Bool.false_eq_true]

end WebSocketManager

end StockExec

namespace StockExec

namespace WebSocketManager

/-- A socket with a reverse entry for `oid0` is only ever a member of the set
of `oid0` (by consistency). -/
theorem rev_unique (st : WSState) (hc : consistent st) (sock : Nat) (oid0 : String)
    (hr : lookupA st.socketToOrderId sock = some oid0)
    (p : String × List Nat) (hp : p ∈ st.connections) (hs : sock ∈ p.2) :
    p.1 = oid0 := by
  have h1 := (hc.1 p hp).2 sock hs
  rw [hr] at h1
  exact (Option.some.injEq _ _).mp h1.symm

theorem consistent_unregisterSocket (st : WSState) (hc : consistent st) (sock : Nat) :
    consistent (unregisterSocket st sock) := by
  cases hr : lookupA st.socketToOrderId sock with
  | none =>
    rw [unregisterSocket_eq_none st sock hr]
    exact hc
  | some oid0 =>
    rw [unregisterSocket_eq_some st sock oid0 hr]
    cases hcl : lookupA st.connections oid0 with
    | none =>
      rw [removeSock_eq_none st.connections oid0 sock hcl]
      constructor
      · intro p hp
        refine ⟨(hc.1 p hp).1, ?_⟩
        intro s hs
        by_cases hss : s = sock
        · exfalso
          subst hss
          have hpo := rev_unique st hc s oid0 hr p hp hs
          have hmem : (oid0, p.2) ∈ st.connections := by
            rw [← hpo, Prod.mk.eta]
            exact hp
          exact lookupA_eq_none_not_mem st.connections oid0 hcl p.2 hmem
        · rw [lookupA_eraseA_ne _ _ _ hss]
          exact (hc.1 p hp).2 s hs
      · intro q hq
        rw [mem_eraseA] at hq
        exact hc.2 q hq.1
    | some set0 =>
      by_cases he : (set0.filter fun s => decide (s ≠ sock)).isEmpty = true
      · rw [removeSock_eq_empty st.connections oid0 sock set0 hcl he]
        have hnil : set0.filter (fun s => decide (s ≠ sock)) = [] :=
          List.isEmpty_iff.mp he
        constructor
        · intro p hp
          rw [mem_eraseA] at hp
          refine ⟨(hc.1 p hp.1).1, ?_⟩
          intro s hs
          by_cases hss : s = sock
          · exfalso
            subst hss
            exact hp.2 (rev_unique st hc s oid0 hr p hp.1 hs)
          · rw [lookupA_eraseA_ne _ _ _ hss]
            exact (hc.1 p hp.1).2 s hs
        · intro q hq
          rw [mem_eraseA] at hq
          have hb := hc.2 q hq.1
          by_cases hqo : q.2 = oid0
          · exfalso
            unfold socksOf at hb
            rw [hqo, hcl] at hb
            have hqf : q.1 ∈ set0.filter fun s => decide (s ≠ sock) := by
              rw [List.mem_filter]
              exact ⟨hb, by simpa using hq.2⟩
            rw [hnil] at hqf
            cases hqf
          · unfold socksOf
            rw [lookupA_eraseA_ne _ _ _ hqo]
            exact hb
      · rw [removeSock_eq_filter st.connections oid0 sock set0 hcl he]
        constructor
        · intro p hp
          rw [mem_setA] at hp
          rcases hp with hp1 | hp2
          · subst hp1
            refine ⟨?_, ?_⟩
            · intro hc2
              exact he (by rw [show List.filter (fun s => decide (s ≠ sock)) set0 = []
                from hc2]; rfl)
            · intro s hs
              rw [List.mem_filter] at hs
              have hss : s ≠ sock := by simpa using hs.2
              rw [lookupA_eraseA_ne _ _ _ hss]
              exact consistent_set_to_rev st hc oid0 set0 s hcl hs.1
          · refine ⟨(hc.1 p hp2.1).1, ?_⟩
            intro s hs
            by_cases hss : s = sock
            · exfalso
              subst hss
              exact hp2.2 (rev_unique st hc s oid0 hr p hp2.1 hs)
            · rw [lookupA_eraseA_ne _ _ _ hss]
              exact (hc.1 p hp2.1).2 s hs
        · intro q hq
          rw [mem_eraseA] at hq
          have hb := hc.2 q hq.1
          unfold socksOf at hb ⊢
          by_cases hqo : q.2 = oid0
          · rw [hqo, lookupA_setA_self, Option.getD_some, List.mem_filter]
            rw [hqo, hcl] at hb
            exact ⟨hb, by simpa using hq.2⟩
          · rw [lookupA_setA_ne _ _ _ _ hqo]
            exact hb

end WebSocketManager

end StockExec

namespace StockExec

namespace WebSocketManager

theorem consistent_register (st : WSState) (hc : consistent st) (oid : String)
    (sock : Nat)
    (hpre : lookupA st.socketToOrderId sock = none ∨
      lookupA st.socketToOrderId sock = some oid) :
    consistent (register st oid sock) := by
  unfold register
  constructor
  · intro p hp
    rw [mem_setA] at hp
    rcases hp with hp1 | hp2
    · subst hp1
      refine ⟨addSock_ne_nil _ _, ?_⟩
      intro s hs
      by_cases hss : s = sock
      · subst hss
        exact lookupA_setA_self _ _ _
      · rw [lookupA_setA_ne _ _ _ _ hss]
        rw [mem_addSock] at hs
        rcases hs with hs0 | hs1
        · unfold socksOf at hs0
          cases hcl : lookupA st.connections oid with
          | none =>
            rw [hcl] at hs0
            cases hs0
          | some set0 =>
            rw [hcl] at hs0
            exact consistent_set_to_rev st hc oid set0 s hcl hs0
        · exact absurd hs1 hss
    · refine ⟨(hc.1 p hp2.1).1, ?_⟩
      intro s hs
      by_cases hss : s = sock
      · exfalso
        subst hss
        have hrev := (hc.1 p hp2.1).2 s hs
        rcases hpre with hn | hsome
        · rw [hn] at hrev
          cases hrev
        · rw [hsome] at hrev
          exact hp2.2 ((Option.some.injEq _ _).mp hrev.symm)
      · rw [lookupA_setA_ne _ _ _ _ hss]
        exact (hc.1 p hp2.1).2 s hs
  · intro q hq
    rw [mem_setA] at hq
    rcases hq with hq1 | hq2
    · subst hq1
      unfold socksOf
      rw [lookupA_setA_self, Option.getD_some, mem_addSock]
      exact Or.inr rfl
    · have hb := hc.2 q hq2.1
      unfold socksOf at hb ⊢
      by_cases hqo : q.2 = oid
      · rw [hqo, lookupA_setA_self, Option.getD_some, mem_addSock]
        rw [hqo] at hb
        exact Or.inl hb
      · rw [lookupA_setA_ne _ _ _ _ hqo]
        exact hb

theorem unregister_eq_none (st : WSState) (oid : String)
    (hcl : lookupA st.connections oid = none) : unregister st oid = st := by
  unfold unregister
  rw [hcl]

theorem unregister_eq_some (st : WSState) (oid : String) (set0 : List Nat)
    (hcl : lookupA st.connections oid = some set0) :
    unregister st oid =
      { connections := eraseA st.connections oid
        socketToOrderId := set0.foldl (fun m s => eraseA m s) st.socketToOrderId } := by
  unfold unregister
  rw [hcl]

theorem lookupA_foldl_eraseA (R : List (Nat × String)) (l : List Nat) (s : Nat) :
    lookupA (l.foldl (fun m x => eraseA m x) R) s =
      if s ∈ l then none else lookupA R s := by
  induction l generalizing R with
  | nil => simp
  | cons a t ih =>
    rw [List.foldl_cons, ih]
    by_cases hst : s ∈ t
    · simp [hst, List.mem_cons]
    · by_cases hsa : s = a
      · subst hsa
        simp [hst, lookupA_eraseA_self]
      · simp [hst, hsa, List.mem_cons, lookupA_eraseA_ne R a s hsa]

theorem mem_foldl_eraseA (R : List (Nat × String)) (l : List Nat) (q : Nat × String) :
    q ∈ l.foldl (fun m x => eraseA m x) R ↔ q ∈ R ∧ ¬ q.1 ∈ l := by
  induction l generalizing R with
  | nil => simp
  | cons a t ih =>
    rw [List.foldl_cons, ih, mem_eraseA]
    simp [List.mem_cons]
    tauto

theorem consistent_unregister (st : WSState) (hc : consistent st) (oid : String) :
    consistent (unregister st oid) := by
  cases hcl : lookupA st.connections oid with
  | none =>
    rw [unregister_eq_none st oid hcl]
    exact hc
  | some set0 =>
    rw [unregister_eq_some st oid set0 hcl]
    constructor
    · intro p hp
      rw [mem_eraseA] at hp
      refine ⟨(hc.1 p hp.1).1, ?_⟩
      intro s hs
      rw [lookupA_foldl_eraseA]
      have hrev := (hc.1 p hp.1).2 s hs
      by_cases hsm : s ∈ set0
      · exfalso
        have := consistent_set_to_rev st hc oid set0 s hcl hsm
        rw [this] at hrev
        exact hp.2 ((Option.some.injEq _ _).mp hrev.symm)
      · rw [if_neg hsm]
        exact hrev
    · intro q hq
      rw [mem_foldl_eraseA] at hq
      have hb := hc.2 q hq.1
      unfold socksOf at hb ⊢
      by_cases hqo : q.2 = oid
      · exfalso
        rw [hqo, hcl, Option.getD_some] at hb
        exact hq.2 hb
      · rw [lookupA_eraseA_ne _ _ _ hqo]
        exact hb

theorem consistent_clearAll : consistent clearAll :=
  ⟨fun p hp => absurd hp (List.not_mem_nil p),
   fun q hq => absurd hq (List.not_mem_nil q)⟩

end WebSocketManager

end StockExec

namespace StockExec

namespace WebSocketManager

theorem emitStep_fst (env : WSEnv) (acc : WSState × Nat) (s : Nat) :
    (emitStep env acc s).1 = acc.1 ∨
      (emitStep env acc s).1 = unregisterSocket acc.1 s := by
  unfold emitStep
  by_cases hr : env.readyState s = 1
  · by_cases hs : env.sendOk s
    · rw [if_pos hr, if_pos hs]
      exact Or.inl rfl
    · rw [if_pos hr, if_neg hs]
      exact Or.inr rfl
  · rw [if_neg hr]
    exact Or.inr rfl

theorem emit_fold_consistent (env : WSEnv) (l : List Nat) :
    ∀ acc : WSState × Nat, consistent acc.1 →
      consistent ((l.foldl (emitStep env) acc).1) := by
  induction l with
  | nil => exact fun acc h => h
  | cons a t ih =>
    intro acc h
    rw [List.foldl_cons]
    apply ih
    rcases emitStep_fst env acc a with he | he
    · rw [he]
      exact h
    · rw [he]
      exact consistent_unregisterSocket acc.1 h a

theorem emit_fold_count (env : WSEnv) (l : List Nat) :
    ∀ acc : WSState × Nat,
      ((l.foldl (emitStep env) acc).2) = acc.2 + (l.filter (goodSock env)).length := by
  induction l with
  | nil => simp
  | cons a t ih =>
    intro acc
    rw [List.foldl_cons, ih]
    unfold emitStep goodSock
    by_cases hr : env.readyState a = 1
    · by_cases hs : env.sendOk a
      · simp [hr, hs, List.filter]
        omega
      · simp [hr, hs, List.filter]
    · simp [hr, List.filter]

/-- A socket that is fully absent from both maps. -/
def sockGone (st : WSState) (s : Nat) : Prop :=
  lookupA st.socketToOrderId s = none ∧ ∀ p ∈ st.connections, ¬ s ∈ p.2

theorem sockGone_not_in_socksOf (st : WSState) (s : Nat) (hg : sockGone st s)
    (oid : String) : ¬ s ∈ socksOf st oid := by
  unfold socksOf
  cases hcl : lookupA st.connections oid with
  | none => simp
  | some set0 =>
    rw [Option.getD_some]
    exact hg.2 (oid, set0) (lookupA_mem _ _ _ hcl)

theorem unregisterSocket_gone (st : WSState) (hc : consistent st) (sock : Nat) :
    sockGone (unregisterSocket st sock) sock := by
  cases hr : lookupA st.socketToOrderId sock with
  | none =>
    rw [unregisterSocket_eq_none st sock hr]
    refine ⟨hr, ?_⟩
    intro p hp hmem
    have := (hc.1 p hp).2 sock hmem
    rw [hr] at this
    cases this
  | some oid0 =>
    rw [unregisterSocket_eq_some st sock oid0 hr]
    refine ⟨lookupA_eraseA_self _ _, ?_⟩
    intro p hp hmem
    cases hcl : lookupA st.connections oid0 with
    | none =>
      rw [removeSock_eq_none st.connections oid0 sock hcl] at hp
      have hpo := rev_unique st hc sock oid0 hr p hp hmem
      have hm : (oid0, p.2) ∈ st.connections := by
        rw [← hpo, Prod.mk.eta]
        exact hp
      exact lookupA_eq_none_not_mem st.connections oid0 hcl p.2 hm
    | some set0 =>
      by_cases he : (set0.filter fun s => decide (s ≠ sock)).isEmpty = true
      · rw [removeSock_eq_empty st.connections oid0 sock set0 hcl he] at hp
        rw [mem_eraseA] at hp
        exact hp.2 (rev_unique st hc sock oid0 hr p hp.1 hmem)
      · rw [removeSock_eq_filter st.connections oid0 sock set0 hcl he] at hp
        rw [mem_setA] at hp
        rcases hp with hp1 | hp2
        · subst hp1
          rw [List.mem_filter] at hmem
          simp at hmem
        · exact hp2.2 (rev_unique st hc sock oid0 hr p hp2.1 hmem)

theorem sockGone_unregisterSocket (st : WSState) (s s' : Nat) (hg : sockGone st s) :
    sockGone (unregisterSocket st s') s := by
  cases hr : lookupA st.socketToOrderId s' with
  | none =>
    rw [unregisterSocket_eq_none st s' hr]
    exact hg
  | some oid0 =>
    rw [unregisterSocket_eq_some st s' oid0 hr]
    constructor
    · by_cases hss : s = s'
      · subst hss
        exact lookupA_eraseA_self _ _
      · rw [lookupA_eraseA_ne _ _ _ hss]
        exact hg.1
    · intro p hp hmem
      cases hcl : lookupA st.connections oid0 with
      | none =>
        rw [removeSock_eq_none st.connections oid0 s' hcl] at hp
        exact hg.2 p hp hmem
      | some set0 =>
        by_cases he : (set0.filter fun x => decide (x ≠ s')).isEmpty = true
        · rw [removeSock_eq_empty st.connections oid0 s' set0 hcl he] at hp
          rw [mem_eraseA] at hp
          exact hg.2 p hp.1 hmem
        · rw [removeSock_eq_filter st.connections oid0 s' set0 hcl he] at hp
          rw [mem_setA] at hp
          rcases hp with hp1 | hp2
          · subst hp1
            rw [List.mem_filter] at hmem
            exact hg.2 (oid0, set0) (lookupA_mem _ _ _ hcl) hmem.1
          · exact hg.2 p hp2.1 hmem

theorem emit_fold_gone (env : WSEnv) (l : List Nat) :
    ∀ (acc : WSState × Nat) (s : Nat), sockGone acc.1 s →
      sockGone ((l.foldl (emitStep env) acc).1) s := by
  induction l with
  | nil => exact fun acc s h => h
  | cons a t ih =>
    intro acc s h
    rw [List.foldl_cons]
    apply ih
    rcases emitStep_fst env acc a with he | he
    · rw [he]
      exact h
    · rw [he]
      exact sockGone_unregisterSocket acc.1 s a h

theorem emit_fold_removes (env : WSEnv) (l : List Nat) :
    ∀ acc : WSState × Nat, consistent acc.1 →
      ∀ s ∈ l, goodSock env s = false →
        sockGone ((l.foldl (emitStep env) acc).1) s := by
  induction l with
  | nil =>
    intro acc _ s hs
    cases hs
  | cons a t ih =>
    intro acc hcA s hs hbad
    rw [List.foldl_cons]
    have hc' : consistent (emitStep env acc a).1 := by
      rcases emitStep_fst env acc a with he | he
      · rw [he]
        exact hcA
      · rw [he]
        exact consistent_unregisterSocket acc.1 hcA a
    rcases List.mem_cons.mp hs with rfl | hst
    · have hstep : (emitStep env acc s).1 = unregisterSocket acc.1 s := by
        unfold emitStep
        unfold goodSock at hbad
        by_cases hr : env.readyState s = 1
        · by_cases hsnd : env.sendOk s
          · exfalso
            rw [hr, hsnd] at hbad
            simp at hbad
          · rw [if_pos hr, if_neg hsnd]
        · rw [if_neg hr]
      apply emit_fold_gone env t
      rw [hstep]
      exact unregisterSocket_gone acc.1 hcA s
    · exact ih (emitStep env acc a) hc' s hst hbad

end WebSocketManager

end StockExec

namespace StockExec

namespace WebSocketManager

theorem emitToOrder_eq_none (env : WSEnv) (st : WSState) (oid : String)
    (hcl : lookupA st.connections oid = none) :
    emitToOrder env st oid = (st, 0) := by
  unfold emitToOrder
  rw [hcl]

theorem emitToOrder_eq_empty (env : WSEnv) (st : WSState) (oid : String)
    (socks : List Nat) (hcl : lookupA st.connections oid = some socks)
    (he : socks.isEmpty = true) : emitToOrder env st oid = (st, 0) := by
  unfold emitToOrder
  rw [hcl]
  simp only [he, if_true]

theorem emitToOrder_eq_fold (env : WSEnv) (st : WSState) (oid : String)
    (socks : List Nat) (hcl : lookupA st.connections oid = some socks)
    (he : ¬ socks.isEmpty = true) :
    emitToOrder env st oid = socks.foldl (emitStep env) (st, 0) := by
  unfold emitToOrder
  rw [hcl]
  simp only [he, if_false, Bool.false_eq_true]

end WebSocketManager

open WebSocketManager in
/-- C8: `emitToOrder` returns the number of sockets whose send succeeded (a
natural number, hence ≥ 0): exactly the registered sockets that are open and
whose send does not throw.  With no registered sockets it returns `(st, 0)`
without error or state change, and every registered socket that is not open or
whose send fails (`goodSock = false`) is unregistered from both maps and not
counted.  `env3/st3/oid3` is an arbitrary call, `st2/oid2` one with no
registered channels, and `st/oid/s` a call observing the bad socket `s`. -/
theorem emitToOrder_spec
    (env3 : WSEnv) (st3 : WSState) (oid3 : String)
    (env2 : WSEnv) (st2 : WSState) (oid2 : String)
    (h2 : lookupA st2.connections oid2 = none)
    (env : WSEnv) (st : WSState) (oid : String) (s : Nat)
    (hc : consistent st) (hs : s ∈ socksOf st oid) (hbad : goodSock env s = false) :
    (emitToOrder env3 st3 oid3).2 =
      ((socksOf st3 oid3).filter (goodSock env3)).length ∧
    emitToOrder env2 st2 oid2 = (st2, 0) ∧
    ¬ s ∈ socksOf (emitToOrder env st oid).1 oid ∧
    lookupA (emitToOrder env st oid).1.socketToOrderId s = none := by
  have hcount : (emitToOrder env3 st3 oid3).2 =
      ((socksOf st3 oid3).filter (goodSock env3)).length := by
    cases hcl : lookupA st3.connections oid3 with
    | none =>
      rw [emitToOrder_eq_none env3 st3 oid3 hcl]
      unfold socksOf
      rw [hcl]
      rfl
    | some socks =>
      by_cases hemp : socks.isEmpty = true
      · rw [emitToOrder_eq_empty env3 st3 oid3 socks hcl hemp]
        unfold socksOf
        rw [hcl, Option.getD_some, List.isEmpty_iff.mp hemp]
        rfl
      · rw [emitToOrder_eq_fold env3 st3 oid3 socks hcl hemp,
          emit_fold_count env3 socks (st3, 0)]
        unfold socksOf
        rw [hcl, Option.getD_some]
        simp
  have hgone : sockGone (emitToOrder env st oid).1 s := by
    unfold socksOf at hs
    cases hcl : lookupA st.connections oid with
    | none =>
      rw [hcl] at hs
      cases hs
    | some socks =>
      rw [hcl, Option.getD_some] at hs
      have hemp : ¬ socks.isEmpty = true := by
        intro hco
        rw [List.isEmpty_iff.mp hco] at hs
        cases hs
      rw [emitToOrder_eq_fold env st oid socks hcl hemp]
      exact emit_fold_removes env socks (st, 0) hc s hs hbad
  exact ⟨hcount, emitToOrder_eq_none env2 st2 oid2 h2,
    sockGone_not_in_socksOf _ s hgone oid, hgone.1⟩

/-- Delivery environment for the C8 witness: socket 5 is open and sends
succeed; socket 6 is not open. -/
def wWsEnv : WebSocketManager.WSEnv :=
  { readyState := fun s => if s = 5 then 1 else 0, sendOk := fun _ => true }

/-- Registry state for the C8 witness: sockets 5 and 6 registered for "o". -/
def wWsStC8 : WebSocketManager.WSState :=
  WebSocketManager.register (WebSocketManager.register {} "o" 5) "o" 6

open WebSocketManager in
theorem emitToOrder_spec_witness :
    (emitToOrder wWsEnv wWsStC8 "o").2 =
      ((socksOf wWsStC8 "o").filter (goodSock wWsEnv)).length ∧
    emitToOrder wWsEnv {} "x" = ({}, 0) ∧
    ¬ 6 ∈ socksOf (emitToOrder wWsEnv wWsStC8 "o").1 "o" ∧
    lookupA (emitToOrder wWsEnv wWsStC8 "o").1.socketToOrderId 6 = none :=
  emitToOrder_spec wWsEnv wWsStC8 "o" wWsEnv {} "x" (by decide)
    wWsEnv wWsStC8 "o" 6 (by decide) (by decide) (by decide)

open WebSocketManager in
/-- C10 counterexample: registering a socket already registered for a
different orderId leaves the two maps inconsistent — the socket stays in the
old order's set while the reverse map points to the new order. -/
theorem register_foreign_socket_cex :
    consistent (register ({} : WSState) "o1" 7) ∧
    ¬ consistent (register (register ({} : WSState) "o1" 7) "o2" 7) := by
  decide

open WebSocketManager in
/-- C10 (amended): the two maps of the `WebSocketManager` stay mutually
consistent under `unregisterSocket`, `unregister`, `emitToOrder` and
`clearAll`, and under `register` provided the socket is not currently
registered for a different orderId (each socket is registered exactly once in
the repository, by the stream route). -/
theorem wsManager_consistency_amended (st : WSState) (hc : consistent st)
    (oid : String) (sock : Nat)
    (hpre : lookupA st.socketToOrderId sock = none ∨
      lookupA st.socketToOrderId sock = some oid)
    (sock2 : Nat) (oid3 : String) (env : WSEnv) (oid4 : String) :
    consistent (register st oid sock) ∧
    consistent (unregisterSocket st sock2) ∧
    consistent (unregister st oid3) ∧
    consistent ((emitToOrder env st oid4).1) ∧
    consistent clearAll := by
  refine ⟨consistent_register st hc oid sock hpre,
    consistent_unregisterSocket st hc sock2,
    consistent_unregister st hc oid3, ?_, consistent_clearAll⟩
  cases hcl : lookupA st.connections oid4 with
  | none =>
    rw [emitToOrder_eq_none env st oid4 hcl]
    exact hc
  | some socks =>
    by_cases hemp : socks.isEmpty = true
    · rw [emitToOrder_eq_empty env st oid4 socks hcl hemp]
      exact hc
    · rw [emitToOrder_eq_fold env st oid4 socks hcl hemp]
      exact emit_fold_consistent env socks (st, 0) hc

open WebSocketManager in
theorem wsManager_consistency_amended_witness :
    consistent (register (register ({} : WSState) "o1" 7) "o9" 8) ∧
    consistent (unregisterSocket (register ({} : WSState) "o1" 7) 7) ∧
    consistent (unregister (register ({} : WSState) "o1" 7) "o1") ∧
    consistent ((emitToOrder wWsEnv (register ({} : WSState) "o1" 7) "o1").1) ∧
    consistent clearAll :=
  wsManager_consistency_amended (register ({} : WSState) "o1" 7) (by decide)
    "o9" 8 (Or.inl (by decide)) 7 "o1" wWsEnv "o1"

end StockExec

namespace StockExec

/-! ### Order request validation (order.validator.ts, error.util.ts,
orders.routes.ts) -/

/-- Leading digits of a character stream (and the remainder). -/
def takeDigits : List Char → List Char × List Char
  | [] => ([], [])
  | c :: t =>
    if c.isDigit then
      let r := takeDigits t
      (c :: r.1, r.2)
    else ([], c :: t)

/-- Optional leading sign: returns the sign factor and the remainder. -/
def parseSign : List Char → Rat × List Char
  | '-' :: r => (-1, r)
  | '+' :: r => (1, r)
  | cs => (1, cs)

/-- JavaScript `parseFloat` on the grammar `[+-]? digits [. digits]?` (with a
trailing ignored suffix): `none` models `NaN` (no digit parsed). -/
def parseFloatQ (s : String) : Option Rat :=
  let sp := parseSign s.data
  let ip := takeDigits sp.2
  let fp : List Char :=
    match ip.2 with
    | '.' :: r => (takeDigits r).1
    | _ => []
  if ip.1.isEmpty && fp.isEmpty then none
  else some (sp.1 * ((charsVal ip.1 : Rat) + (charsVal fp : Rat) / 10 ^ fp.length))

/-- The `amountIn` refinement of `orderRequestSchema`
(order.validator.ts lines 6-12): `!isNaN(num) && num > 0`. -/
def amountInOk (s : String) : Bool :=
  match parseFloatQ s with
  | none => false
  | some num => decide (num > 0)

/-- The `minAmountOut` refinement (lines 14-21): absent or empty is accepted;
otherwise `!isNaN(num) && num >= 0`. -/
def minAmountOutOk : Option String → Bool
  | none => true
  | some v =>
    if v.isEmpty then true
    else
      match parseFloatQ v with
      | none => false
      | some num => decide (num ≥ 0)

/-- An incoming order-creation request body. -/
structure OrderRequestIn where
  tokenIn : String
  tokenOut : String
  amountIn : String
  slippageTolerance : Rat
  minAmountOut : Option String := none
deriving DecidableEq, Repr

/-- The Zod issues raised by `orderRequestSchema` (order.validator.ts lines
3-22), one message per failing field. -/
def orderRequestIssues (r : OrderRequestIn) : List String :=
  (if r.tokenIn.length ≥ 1 then [] else ["tokenIn is required"]) ++
  (if r.tokenOut.length ≥ 1 then [] else ["tokenOut is required"]) ++
  (if amountInOk r.amountIn then [] else ["amountIn must be a positive number"]) ++
  (if 0 ≤ r.slippageTolerance ∧ r.slippageTolerance ≤ 100 then []
   else ["slippageTolerance must be between 0 and 100"]) ++
  (if minAmountOutOk r.minAmountOut then []
   else ["minAmountOut must be a non-negative number"])

/-- `orderRequestSchema.parse` succeeds exactly when no issue is raised. -/
def orderRequestSchema (r : OrderRequestIn) : Bool :=
  (orderRequestIssues r).isEmpty

/-- An HTTP response as produced by the route / `handleRouteError`. -/
structure ApiResponse where
  code : Nat
  success : Bool
  error : Option String := none
  details : List String := []
deriving DecidableEq, Repr

/-- `handleRouteError` (error.util.ts lines 3-19): a `ZodError` maps to
`400 {success:false, error:"Validation error", details}`; anything else to
`500 {success:false, error:"Internal server error"}`. -/
def handleRouteError (errName : String) (details : List String) : ApiResponse :=
  if errName = "ZodError" then
    { code := 400, success := false, error := some "Validation error"
      details := details }
  else { code := 500, success := false, error := some "Internal server error" }

/-- Whether one of the steps after order creation (Redis connection, workers,
queueing, read-back) throws in the `POST /api/orders/execute` handler. -/
structure RouteEnv where
  downstreamError : Bool := false

/-- The `POST /api/orders/execute` handler (orders.routes.ts lines 21-74):
`orderRequestSchema.parse` throws a `ZodError` on invalid bodies, which the
`catch` turns into a 400 via `handleRouteError`; otherwise the order is
created (second component `true`) and either a downstream failure yields a 500
or the handler replies 201. -/
def postOrdersExecute (env : RouteEnv) (r : OrderRequestIn) : ApiResponse × Bool :=
  if orderRequestSchema r then
    if env.downstreamError then (handleRouteError "Error" [], true)
    else ({ code := 201, success := true }, true)
  else (handleRouteError "ZodError" (orderRequestIssues r), false)

end StockExec

namespace StockExec

/-- C9: a request failing schema validation — in particular one whose
`amountIn` parses to zero or a negative number, or fails to parse — receives
`400 {success:false, error:"Validation error", details:[…]}` with a non-empty
details list, and no order row is created. -/
theorem validation_failure_400
    (r : OrderRequestIn) (env : RouteEnv) (hv : orderRequestSchema r = false)
    (s : String) (q : Rat) (hq : parseFloatQ s = some q) (hq0 : q ≤ 0)
    (s2 : String) (h2 : parseFloatQ s2 = none)
    (r3 : OrderRequestIn) (h3 : amountInOk r3.amountIn = false) :
    postOrdersExecute env r =
      ({ code := 400, success := false, error := some "Validation error"
         details := orderRequestIssues r }, false) ∧
    orderRequestIssues r ≠ [] ∧
    amountInOk s = false ∧
    amountInOk s2 = false ∧
    orderRequestSchema r3 = false := by
  refine ⟨?_, ?_, ?_, ?_, ?_⟩
  · unfold postOrdersExecute
    rw [hv]
    simp [handleRouteError]
  · intro hc
    unfold orderRequestSchema at hv
    rw [hc] at hv
    cases hv
  · unfold amountInOk
    rw [hq]
    exact decide_eq_false (not_lt.mpr hq0)
  · unfold amountInOk
    rw [h2]
  · unfold orderRequestSchema orderRequestIssues
    rw [h3]
    simp

def wReqC9 : OrderRequestIn :=
  { tokenIn := "SOL", tokenOut := "USDC", amountIn := "0",
    slippageTolerance := 1 }

theorem validation_failure_400_witness :
    postOrdersExecute {} wReqC9 =
      ({ code := 400, success := false, error := some "Validation error"
         details := orderRequestIssues wReqC9 }, false) ∧
    orderRequestIssues wReqC9 ≠ [] ∧
    amountInOk "-1" = false ∧
    amountInOk "abc" = false ∧
    orderRequestSchema wReqC9 = false :=
  validation_failure_400 wReqC9 {}
    (by simp +decide [orderRequestSchema, orderRequestIssues, wReqC9, amountInOk,
      minAmountOutOk, parseFloatQ, parseSign, takeDigits, charsVal])
    "-1" (-1)
    (by simp +decide [parseFloatQ, parseSign, takeDigits, charsVal])
    (by norm_num) "abc" rfl wReqC9
    (by simp +decide [wReqC9, amountInOk, parseFloatQ, parseSign, takeDigits, charsVal])

end StockExec
